import Mathlib

/-!
A shallow embedding of the chatbot application in `src/app.py`.

Python strings are modelled as `List Char` (`Str`).  The external services
(Google Vision OCR, pdf2image rasterization, pandas parsing, the Groq chat
completion endpoint) are modelled as oracle arguments of `Except`/function
type: an `Except.error e` argument stands for the library call raising an
exception whose rendered message is `e`.  Calls to `st.error` are modelled by
returning the emitted messages in a `notices` field.
-/

/-- Python strings are modelled as lists of characters. -/
abbrev Str := List Char

/-- Embed a Lean string literal as a `Str`. -/
def lit (s : String) : Str := s.toList

/-- Python `str.lower()`, character by character. -/
def lower (s : Str) : Str := s.map Char.toLower

/-- Python `str.strip()`: drop whitespace from both ends. -/
def pyStrip (s : Str) : Str :=
  ((s.dropWhile Char.isWhitespace).reverse.dropWhile Char.isWhitespace).reverse

/-- Accumulator worker for `pySplit`; `tok` holds the characters of the
current token in reverse order. -/
def pySplitAux : Str → Str → List Str
  | [], tok => if tok = [] then [] else [tok.reverse]
  | c :: cs, tok =>
    if c.isWhitespace then
      if tok = [] then pySplitAux cs [] else tok.reverse :: pySplitAux cs []
    else pySplitAux cs (c :: tok)

/-- Python `str.split()` with no separator: maximal runs of non-whitespace
characters, with empty tokens dropped. -/
def pySplit (s : Str) : List Str := pySplitAux s []

/-- Python's substring operator `needle in hay` on strings. -/
def pyIn (needle : Str) : Str → Bool
  | [] => needle.isPrefixOf []
  | c :: cs => needle.isPrefixOf (c :: cs) || pyIn needle cs

/-- Number of positions of `s` at which `pat` occurs as a substring. -/
def countOcc (pat : Str) : Str → Nat
  | [] => if pat.isPrefixOf [] then 1 else 0
  | c :: cs => (if pat.isPrefixOf (c :: cs) then 1 else 0) + countOcc pat cs

/-- Result of one extractor invocation: the returned text together with the
error messages emitted through `st.error`. -/
structure ExtractResult where
  text : Str
  notices : List Str
deriving DecidableEq

/-- The response object returned by the Vision `text_detection` call:
`response.error.message` and the descriptions of `response.text_annotations`. -/
structure OcrResponse where
  errorMessage : Str
  annotations : List Str
deriving DecidableEq

/-- Outcome of one raw OCR service call: the call either raises (`error`)
or returns a response object. -/
abbrev OcrOutcome := Except Str OcrResponse

/-- `extract_text_from_image` (src/app.py lines 48-60): returns the first
annotation's description, or the empty string when there is none; any raised
error (including a nonempty `response.error.message`, re-raised by line 55)
is caught, reported via `st.error`, and turned into the empty string. -/
def extract_text_from_image (ocr : OcrOutcome) : ExtractResult :=
  match ocr with
  | .error e =>
    { text := [], notices := [lit "Error extracting text from image: " ++ e] }
  | .ok resp =>
    if resp.errorMessage ≠ [] then
      { text := [],
        notices := [lit "Error extracting text from image: " ++ resp.errorMessage] }
    else
      match resp.annotations with
      | [] => { text := [], notices := [] }
      | t :: _ => { text := t, notices := [] }

/-- The page block appended for page number `i` (1-indexed) in
`extract_text_from_pdf`: the f-string on src/app.py line 72. -/
def pdfBlock (i : Nat) (pageText : Str) : Str :=
  lit "--- Page " ++ lit (Nat.repr i) ++ lit " ---\n" ++ pageText ++ lit "\n\n"

/-- The `for i, image in enumerate(images)` loop of `extract_text_from_pdf`
(src/app.py lines 68-72), carrying the accumulated text and the error
notices emitted so far; `i` is the 1-indexed page number. -/
def pdfLoop : List OcrOutcome → Nat → Str → List Str → ExtractResult
  | [], _, accText, accNotes => { text := accText, notices := accNotes }
  | p :: ps, i, accText, accNotes =>
    let r := extract_text_from_image p
    pdfLoop ps (i + 1) (accText ++ pdfBlock i r.text) (accNotes ++ r.notices)

/-- `extract_text_from_pdf` (src/app.py lines 63-76).  The rasterization
oracle is the result of `convert_from_path`: either the list of per-page OCR
outcomes, or a raised error, which the handler on lines 74-76 turns into an
empty string plus a notice. -/
def extract_text_from_pdf (raster : Except Str (List OcrOutcome)) : ExtractResult :=
  match raster with
  | .error e =>
    { text := [], notices := [lit "Error extracting text from PDF: " ++ e] }
  | .ok pages => pdfLoop pages 1 [] []

/-- `process_excel` (src/app.py lines 79-86).  The oracle is the rendered
table text produced by pandas, or a raised error. -/
def process_excel (parsed : Except Str Str) : ExtractResult :=
  match parsed with
  | .ok t => { text := t, notices := [] }
  | .error e =>
    { text := [], notices := [lit "Error processing Excel/CSV file: " ++ e] }

/-- The rejection message returned by the relevance check in `ask_gpt4`. -/
def rejectionMsg : Str := lit "Please ask a question related to the provided content."

/-- Result of one `ask_gpt4` invocation: returned text, the number of
outbound chat-completion calls made, and the `st.error` messages emitted. -/
structure GptResult where
  text : Str
  llmCalls : Nat
  notices : List Str
deriving DecidableEq

/-- The keyword-overlap check on src/app.py line 92:
`any(keyword in prompt.lower() for keyword in extracted_text.lower().split())`. -/
def relevanceHit (prompt extractedText : Str) : Bool :=
  (pySplit (lower extractedText)).any (fun kw => pyIn kw (lower prompt))

/-- `ask_gpt4` (src/app.py lines 89-102).  The oracle `llm` is the chat
completion endpoint: `.ok reply` is the returned message content, `.error e`
a raised transport/API error, caught on lines 100-102. -/
def ask_gpt4 (llm : Str → Except Str Str) (prompt extractedText : Str) : GptResult :=
  if relevanceHit prompt extractedText = false then
    { text := rejectionMsg, llmCalls := 0, notices := [] }
  else
    match llm prompt with
    | .ok reply => { text := pyStrip reply, llmCalls := 1, notices := [] }
    | .error e =>
      { text := [], llmCalls := 1,
        notices := [lit "Error communicating with GPT: " ++ e] }

/-- The Text input branch (src/app.py lines 122-126): `extracted_text` starts
as `""` and is set to `user_text` only when `user_text` is truthy. -/
def extractFromTextInput (userText : Str) : Str :=
  if userText ≠ [] then userText else []

/-- Prompt assembly in `main` (src/app.py lines 174-177). -/
def composePrompt (extractedText : Str) (history : List Str) (question : Str) : Str :=
  let p1 := lit "Here is the content:\n\n" ++ extractedText
  let p2 :=
    if history = [] then p1
    else p1 ++ lit "\n\nPrevious conversation:\n" ++ List.intercalate (lit "\n") history
  p2 ++ lit "\n\nQuestion: " ++ question ++ lit "\nAnswer:"

/-- The history record appended on src/app.py line 181:
`f"Q: {question}\nA: {answer}"`. -/
def renderRecord (q a : Str) : Str := lit "Q: " ++ q ++ lit "\nA: " ++ a

/-- The answer text produced for `question` against `history`. -/
def answerOf (llm : Str → Except Str Str) (extractedText : Str)
    (history : List Str) (question : Str) : Str :=
  (ask_gpt4 llm (composePrompt extractedText history question) extractedText).text

/-- The body of the `Get Answer` branch (src/app.py lines 173-181): compose
the prompt, call `ask_gpt4`, append one record; returns the new history and
the displayed answer. -/
def getAnswerStep (llm : Str → Except Str Str) (extractedText : Str)
    (history : List Str) (question : Str) : List Str × Str :=
  let result := ask_gpt4 llm (composePrompt extractedText history question) extractedText
  (history ++ [renderRecord question result.text], result.text)

/-- The guarded interaction on src/app.py line 172: with the button pressed,
the answer branch runs only when `question` is truthy (non-empty). -/
def questionInteraction (llm : Str → Except Str Str) (extractedText : Str)
    (history : List Str) (question : Str) : List Str × Option Str :=
  if question = [] then (history, none)
  else
    let s := getAnswerStep llm extractedText history question
    (s.1, some s.2)

/-- A whole session: starting from `history`, submit the questions of `qs`
in order, each through `getAnswerStep`. -/
def runSession (llm : Str → Except Str Str) (extractedText : Str) :
    List Str → List Str → List Str
  | history, [] => history
  | history, q :: qs =>
    runSession llm extractedText (getAnswerStep llm extractedText history q).1 qs

/-- Modelled from the spec (§4.1): the PDF extractor output as §4.1 words it
for the success path — the concatenation, in ascending page order starting at
`i`, of a page-delimiter header, that page's OCR text, and a blank line. -/
def specPdfConcat : Nat → List OcrOutcome → Str
  | _, [] => []
  | i, p :: ps => pdfBlock i (extract_text_from_image p).text ++ specPdfConcat (i + 1) ps

/-! ### Helper lemmas about the string primitives -/

/-- Lowercasing a character preserves whether it is whitespace. -/
theorem toLower_isWhitespace (c : Char) :
    (Char.toLower c).isWhitespace = c.isWhitespace := by
  unfold Char.toLower
  by_cases h : c.toNat ≥ 65 ∧ c.toNat ≤ 90
  · rw [if_pos h]
    obtain ⟨h1, h2⟩ := h
    have hv : Nat.isValidChar (c.toNat + 32) := Or.inl (by omega)
    have hval : (Char.ofNat (c.toNat + 32)).toNat = c.toNat + 32 := by
      unfold Char.ofNat
      rw [dif_pos hv]
      cases hv with
      | inl hlt => rfl
      | inr hx => rfl
    have hge : (Char.ofNat (c.toNat + 32)).toNat ≥ 97 := by omega
    have lhs : (Char.ofNat (c.toNat + 32)).isWhitespace = false := by
      unfold Char.isWhitespace
      simp only [Bool.or_eq_false_iff, decide_eq_false_iff_not]
      refine ⟨⟨⟨?_, ?_⟩, ?_⟩, ?_⟩ <;> intro heq <;> rw [heq] at hge <;>
        exact absurd hge (by decide)
    have rhs : c.isWhitespace = false := by
      unfold Char.isWhitespace
      simp only [Bool.or_eq_false_iff, decide_eq_false_iff_not]
      refine ⟨⟨⟨?_, ?_⟩, ?_⟩, ?_⟩ <;> intro heq <;> rw [heq] at h1 <;>
        exact absurd h1 (by decide)
    rw [lhs, rhs]
  · rw [if_neg h]

/-- `pyIn` decides the sublist (substring) relation. -/
theorem pyIn_iff (needle : Str) : ∀ hay, pyIn needle hay = true ↔ needle <:+: hay := by
  intro hay
  induction hay with
  | nil =>
    simp [pyIn, List.isPrefixOf_iff_prefix, List.infix_nil, List.prefix_nil]
  | cons c cs ih =>
    simp [pyIn, List.isPrefixOf_iff_prefix, ih, List.infix_cons_iff]

/-- Every token produced by `pySplitAux s tok` is a substring of the full
input `tok.reverse ++ s`. -/
theorem pySplitAux_mem_infix :
    ∀ (s tok t : Str), t ∈ pySplitAux s tok → t <:+: tok.reverse ++ s := by
  intro s
  induction s with
  | nil =>
    intro tok t ht
    by_cases htok : tok = []
    · simp [pySplitAux, htok] at ht
    · simp [pySplitAux, htok] at ht
      subst ht
      exact (List.prefix_append _ _).isInfix
  | cons c cs ih =>
    intro tok t ht
    by_cases hw : c.isWhitespace
    · by_cases htok : tok = []
      · subst htok
        simp only [pySplitAux, hw, if_true, reduceIte] at ht
        have h1 : t <:+: cs := by simpa using ih [] t ht
        simpa using List.infix_cons h1
      · simp only [pySplitAux, hw, if_true, if_neg htok, List.mem_cons] at ht
        rcases ht with h1 | h1
        · subst h1
          exact (List.prefix_append _ _).isInfix
        · have h2 : t <:+: cs := by simpa using ih [] t h1
          exact (List.infix_cons h2).trans (List.suffix_append _ _).isInfix
    · simp only [pySplitAux, hw, if_false, Bool.false_eq_true] at ht
      have h1 := ih (c :: tok) t ht
      simp only [List.reverse_cons] at h1
      rwa [List.append_assoc, List.singleton_append] at h1

/-- Every token of `pySplit s` is a substring of `s`. -/
theorem pySplit_mem_infix (s t : Str) (ht : t ∈ pySplit s) : t <:+: s := by
  have := pySplitAux_mem_infix s [] t ht
  simpa using this

/-- `pySplitAux` with a nonempty pending token never returns the empty list. -/
theorem pySplitAux_ne_nil (s : Str) : ∀ tok, tok ≠ [] → pySplitAux s tok ≠ [] := by
  induction s with
  | nil =>
    intro tok h
    simp [pySplitAux, h]
  | cons c cs ih =>
    intro tok h
    by_cases hw : c.isWhitespace
    · simp [pySplitAux, hw, h]
    · simp only [pySplitAux, hw, if_false, Bool.false_eq_true]
      exact ih (c :: tok) (by simp)

/-- `pySplit s` is empty exactly when every character of `s` is whitespace. -/
theorem pySplit_eq_nil_iff (s : Str) :
    pySplit s = [] ↔ ∀ c ∈ s, c.isWhitespace := by
  unfold pySplit
  induction s with
  | nil => simp [pySplitAux]
  | cons c cs ih =>
    by_cases hw : c.isWhitespace
    · simp only [pySplitAux, hw, if_true, reduceIte, List.mem_cons]
      rw [ih]
      constructor
      · intro h d hd
        rcases hd with hd | hd
        · subst hd; exact hw
        · exact h d hd
      · intro h
        exact fun d hd => h d (Or.inr hd)
    · simp only [pySplitAux, hw, if_false, Bool.false_eq_true]
      constructor
      · intro h
        exact absurd h (pySplitAux_ne_nil cs [c] (by simp))
      · intro h
        exact absurd (h c (by simp)) (by simpa using hw)

/-- Lowercasing distributes over concatenation. -/
theorem lower_append (a b : Str) : lower (a ++ b) = lower a ++ lower b :=
  List.map_append _ _ _

/-- Substrings are preserved by lowercasing. -/
theorem lower_infix_of_infix {a b : Str} (h : a <:+: b) : lower a <:+: lower b :=
  List.IsInfix.map Char.toLower h

/-- The composed prompt is the content header, the extracted text, and a
remainder, in that order. -/
theorem composePrompt_decomp (extractedText : Str) (history : List Str) (question : Str) :
    ∃ rest, composePrompt extractedText history question
      = lit "Here is the content:\n\n" ++ (extractedText ++ rest) := by
  by_cases h : history = []
  · refine ⟨lit "\n\nQuestion: " ++ question ++ lit "\nAnswer:", ?_⟩
    simp [composePrompt, h, List.append_assoc]
  · refine ⟨lit "\n\nPrevious conversation:\n" ++ List.intercalate (lit "\n") history
      ++ lit "\n\nQuestion: " ++ question ++ lit "\nAnswer:", ?_⟩
    simp [composePrompt, h, List.append_assoc]

/-- The extracted text is a substring of every prompt composed from it. -/
theorem extracted_infix_composePrompt (extractedText : Str) (history : List Str)
    (question : Str) :
    extractedText <:+: composePrompt extractedText history question := by
  obtain ⟨rest, hrest⟩ := composePrompt_decomp extractedText history question
  rw [hrest]
  exact ((List.prefix_append _ _).isInfix).trans (List.suffix_append _ _).isInfix

/-- If the relevance check misses, `ask_gpt4` returns the rejection message,
makes no outbound call, and emits no notice. -/
theorem ask_gpt4_of_not_hit (llm : Str → Except Str Str) (prompt extractedText : Str)
    (h : relevanceHit prompt extractedText = false) :
    ask_gpt4 llm prompt extractedText
      = { text := rejectionMsg, llmCalls := 0, notices := [] } := by
  unfold ask_gpt4
  rw [h]
  simp

/-- If no keyword of the lowercased extracted text occurs in the lowercased
prompt, the relevance check misses. -/
theorem relevanceHit_eq_false (prompt extractedText : Str)
    (h : ∀ kw ∈ pySplit (lower extractedText), ¬ (kw <:+: lower prompt)) :
    relevanceHit prompt extractedText = false := by
  unfold relevanceHit
  rw [List.any_eq_false]
  intro kw hkw
  rw [pyIn_iff]
  exact h kw hkw

/-- If the lowercased extracted text splits into at least one token, the
relevance check succeeds on every prompt composed by the shell from it. -/
theorem relevanceHit_composePrompt (extractedText : Str) (history : List Str)
    (question : Str) (h : pySplit (lower extractedText) ≠ []) :
    relevanceHit (composePrompt extractedText history question) extractedText = true := by
  unfold relevanceHit
  rw [List.any_eq_true]
  obtain ⟨t, ht⟩ := List.exists_mem_of_ne_nil _ h
  refine ⟨t, ht, ?_⟩
  rw [pyIn_iff]
  have h1 : t <:+: lower extractedText := pySplit_mem_infix _ t ht
  have h2 : lower extractedText <:+: lower (composePrompt extractedText history question) :=
    lower_infix_of_infix (extracted_infix_composePrompt extractedText history question)
  exact h1.trans h2

/-- A character of the extracted text that is not whitespace forces the
lowercased split to be nonempty. -/
theorem pySplit_lower_ne_nil (extractedText : Str)
    (h : ∃ c ∈ extractedText, ¬ c.isWhitespace) :
    pySplit (lower extractedText) ≠ [] := by
  intro hnil
  rw [pySplit_eq_nil_iff] at hnil
  obtain ⟨c, hc, hcw⟩ := h
  have := hnil (Char.toLower c) (List.mem_map_of_mem _ hc)
  rw [toLower_isWhitespace] at this
  exact hcw this

/-- An all-whitespace extracted text forces the lowercased split to be empty. -/
theorem pySplit_lower_eq_nil (extractedText : Str)
    (h : ∀ c ∈ extractedText, c.isWhitespace) :
    pySplit (lower extractedText) = [] := by
  rw [pySplit_eq_nil_iff]
  intro d hd
  obtain ⟨c, hc, hrfl⟩ := List.mem_map.mp hd
  subst hrfl
  rw [toLower_isWhitespace]
  exact h c hc

/-! ### Helper lemmas about the PDF loop and the session -/

/-- The text accumulated by the PDF page loop is the starting accumulator
followed by the blocks of the remaining pages in ascending page order. -/
theorem pdfLoop_text (ps : List OcrOutcome) :
    ∀ (i : Nat) (accText : Str) (accNotes : List Str),
      (pdfLoop ps i accText accNotes).text = accText ++ specPdfConcat i ps := by
  induction ps with
  | nil =>
    intro i accText accNotes
    simp [pdfLoop, specPdfConcat]
  | cons p ps ih =>
    intro i accText accNotes
    simp [pdfLoop, specPdfConcat, ih, List.append_assoc]

/-- One step of the session appends exactly one rendered record. -/
theorem getAnswerStep_fst (llm : Str → Except Str Str) (extractedText : Str)
    (history : List Str) (question : Str) :
    (getAnswerStep llm extractedText history question).1
      = history ++ [renderRecord question (answerOf llm extractedText history question)] :=
  rfl

/-- Length bookkeeping for `runSession`. -/
theorem runSession_length (llm : Str → Except Str Str) (extractedText : Str)
    (qs : List Str) : ∀ history : List Str,
    (runSession llm extractedText history qs).length = history.length + qs.length := by
  induction qs with
  | nil =>
    intro history
    simp [runSession]
  | cons q qs ih =>
    intro history
    simp only [runSession]
    rw [ih]
    simp [getAnswerStep_fst]
    omega

/-- The starting history survives a session unchanged, as a prefix. -/
theorem runSession_prefix (llm : Str → Except Str Str) (extractedText : Str)
    (qs : List Str) : ∀ history : List Str,
    history <+: runSession llm extractedText history qs := by
  induction qs with
  | nil =>
    intro history
    simp [runSession]
  | cons q qs ih =>
    intro history
    simp only [runSession]
    refine List.IsPrefix.trans ?_ (ih _)
    rw [getAnswerStep_fst]
    exact List.prefix_append _ _

/-- Splitting a session into two runs. -/
theorem runSession_append (llm : Str → Except Str Str) (extractedText : Str)
    (as : List Str) : ∀ (bs : List Str) (history : List Str),
    runSession llm extractedText history (as ++ bs)
      = runSession llm extractedText (runSession llm extractedText history as) bs := by
  induction as with
  | nil =>
    intro bs history
    simp [runSession]
  | cons a as ih =>
    intro bs history
    simp only [List.cons_append, runSession]
    exact ih bs _

/-- The composed prompt always carries the question trailer as a suffix. -/
theorem composePrompt_suffix (extractedText : Str) (history : List Str) (question : Str) :
    (lit "Question: " ++ question ++ lit "\nAnswer:")
      <:+ composePrompt extractedText history question := by
  have h1 : (lit "Question: " ++ question ++ lit "\nAnswer:")
      <:+ lit "\n\nQuestion: " ++ question ++ lit "\nAnswer:" := by
    refine ⟨lit "\n\n", ?_⟩
    have hsplit : lit "\n\nQuestion: " = lit "\n\n" ++ lit "Question: " := by decide
    rw [hsplit]
    simp [List.append_assoc]
  have h2 : (lit "\n\nQuestion: " ++ question ++ lit "\nAnswer:")
      <:+ composePrompt extractedText history question := by
    simp only [composePrompt]
    refine ⟨(if history = [] then lit "Here is the content:\n\n" ++ extractedText
      else lit "Here is the content:\n\n" ++ extractedText
        ++ lit "\n\nPrevious conversation:\n" ++ List.intercalate (lit "\n") history), ?_⟩
    by_cases h : history = [] <;> simp [h, List.append_assoc]
  exact h1.trans h2

/-! ### The claims -/

/-- C1: the composed prompt is a deterministic string in fixed order — the
literal content header, then the document text; then, iff the history is
non-empty, the literal "Previous conversation:" header and every record in
chronological order rendered `Q: <q>\nA: <a>` and joined by newlines; and it
always ends with the literal `Question: <question>\nAnswer:` trailer for the
most recently supplied question. -/
theorem claim_C1 (documentText question : Str) (records : List (Str × Str)) :
    composePrompt documentText (records.map (fun r => renderRecord r.1 r.2)) question
      = lit "Here is the content:\n\n" ++ documentText
        ++ (if records = [] then []
            else lit "\n\nPrevious conversation:\n"
              ++ List.intercalate (lit "\n") (records.map (fun r => renderRecord r.1 r.2)))
        ++ lit "\n\nQuestion: " ++ question ++ lit "\nAnswer:"
    ∧ ∀ history : List Str,
        (lit "Question: " ++ question ++ lit "\nAnswer:")
          <:+ composePrompt documentText history question := by
  constructor
  · by_cases h : records = []
    · subst h
      simp [composePrompt]
    · have hm : records.map (fun r => renderRecord r.1 r.2) ≠ [] := by
        simpa [List.map_eq_nil_iff] using h
      simp [composePrompt, h, hm, List.append_assoc]
  · intro history
    exact composePrompt_suffix documentText history question

/-- C5: a question sharing no keyword with the extracted document content is
rejected with the explanatory message, and the language model is not called. -/
theorem claim_C5 (llm : Str → Except Str Str) (prompt extractedText : Str)
    (h : ∀ kw ∈ pySplit (lower extractedText), ¬ (kw <:+: lower prompt)) :
    ask_gpt4 llm prompt extractedText
      = { text := rejectionMsg, llmCalls := 0, notices := [] } :=
  ask_gpt4_of_not_hit llm prompt extractedText (relevanceHit_eq_false prompt extractedText h)

/-- Witness for C5 at a concrete no-overlap input. -/
theorem claim_C5_witness :
    (∀ kw ∈ pySplit (lower (lit "xyz")), ¬ (kw <:+: lower (lit "abc")))
    ∧ ask_gpt4 (fun _ => .ok (lit "reply")) (lit "abc") (lit "xyz")
        = { text := rejectionMsg, llmCalls := 0, notices := [] } :=
  ⟨by decide, claim_C5 (fun _ => .ok (lit "reply")) (lit "abc") (lit "xyz") (by decide)⟩

/-- C6: on prompts composed by the shell, the relevance check passes for
every question as soon as the extracted text has one non-whitespace
character, and rejects every question when it has none. -/
theorem claim_C6 (extractedText : Str) (history : List Str) (question : Str) :
    ((∃ c ∈ extractedText, ¬ c.isWhitespace) →
      relevanceHit (composePrompt extractedText history question) extractedText = true)
    ∧ ((∀ c ∈ extractedText, c.isWhitespace) →
      ∀ llm : Str → Except Str Str,
        ask_gpt4 llm (composePrompt extractedText history question) extractedText
          = { text := rejectionMsg, llmCalls := 0, notices := [] }) := by
  constructor
  · intro h
    exact relevanceHit_composePrompt extractedText history question
      (pySplit_lower_ne_nil extractedText h)
  · intro h llm
    apply ask_gpt4_of_not_hit
    unfold relevanceHit
    rw [pySplit_lower_eq_nil extractedText h]
    simp

/-- Witness for C6: a non-blank and a blank document. -/
theorem claim_C6_witness :
    (∃ c ∈ lit "hi", ¬ c.isWhitespace)
    ∧ relevanceHit (composePrompt (lit "hi") [] (lit "?")) (lit "hi") = true
    ∧ (∀ c ∈ ([' '] : Str), c.isWhitespace)
    ∧ ask_gpt4 (fun _ => .ok (lit "reply")) (composePrompt [' '] [] (lit "?")) [' ']
        = { text := rejectionMsg, llmCalls := 0, notices := [] } := by
  refine ⟨⟨'h', by decide, by decide⟩, ?_, by decide, ?_⟩
  · exact (claim_C6 (lit "hi") [] (lit "?")).1 ⟨'h', by decide, by decide⟩
  · exact (claim_C6 [' '] [] (lit "?")).2 (by decide) _

/-- C7: each extractor turns every failure it handles into an empty string
plus a user-visible notice; no extractor raises (all are total functions). -/
theorem claim_C7 :
    (∀ e : Str, extract_text_from_image (.error e)
        = { text := [], notices := [lit "Error extracting text from image: " ++ e] })
    ∧ (∀ resp : OcrResponse, resp.errorMessage ≠ [] →
        extract_text_from_image (.ok resp)
          = { text := [],
              notices := [lit "Error extracting text from image: " ++ resp.errorMessage] })
    ∧ (∀ e : Str, extract_text_from_pdf (.error e)
        = { text := [], notices := [lit "Error extracting text from PDF: " ++ e] })
    ∧ (∀ e : Str, process_excel (.error e)
        = { text := [], notices := [lit "Error processing Excel/CSV file: " ++ e] }) := by
  refine ⟨fun e => rfl, fun resp h => ?_, fun e => rfl, fun e => rfl⟩
  simp [extract_text_from_image, h]

/-- Witness for C7 at a concrete service-reported error. -/
theorem claim_C7_witness :
    (OcrResponse.errorMessage { errorMessage := lit "quota", annotations := [] } ≠ [])
    ∧ extract_text_from_image (.ok { errorMessage := lit "quota", annotations := [] })
        = { text := [],
            notices := [lit "Error extracting text from image: " ++ lit "quota"] } := by
  refine ⟨by decide, ?_⟩
  exact claim_C7.2.1 { errorMessage := lit "quota", annotations := [] } (by decide)

/-- C8 as stated is false: on a rejected question the client makes zero
outbound calls and returns the rejection message, not a trimmed reply. -/
theorem claim_C8_counterexample :
    ask_gpt4 (fun _ => .ok (lit " hi ")) (lit "abc") (lit "xyz")
      = { text := rejectionMsg, llmCalls := 0, notices := [] }
    ∧ (ask_gpt4 (fun _ => .ok (lit " hi ")) (lit "abc") (lit "xyz")).llmCalls ≠ 1 := by
  exact ⟨by decide, by decide⟩

/-- C8 amended: when the relevance check passes, the client returns the
trimmed reply on success and, on failure, the empty string plus a notice —
in both cases with exactly one outbound call and no retry. -/
theorem claim_C8_amended (prompt extractedText : Str)
    (h : relevanceHit prompt extractedText = true) :
    (∀ reply : Str, ask_gpt4 (fun _ => .ok reply) prompt extractedText
        = { text := pyStrip reply, llmCalls := 1, notices := [] })
    ∧ (∀ e : Str, ask_gpt4 (fun _ => .error e) prompt extractedText
        = { text := [], llmCalls := 1,
            notices := [lit "Error communicating with GPT: " ++ e] }) := by
  constructor
  · intro reply
    unfold ask_gpt4
    rw [h]
    simp
  · intro e
    unfold ask_gpt4
    rw [h]
    simp

/-- Witness for the amended C8 at a concrete passing input. -/
theorem claim_C8_amended_witness :
    relevanceHit (lit "ping") (lit "ping") = true
    ∧ ask_gpt4 (fun _ => .ok (lit " pong ")) (lit "ping") (lit "ping")
        = { text := lit "pong", llmCalls := 1, notices := [] }
    ∧ ask_gpt4 (fun _ => .error (lit "down")) (lit "ping") (lit "ping")
        = { text := [], llmCalls := 1,
            notices := [lit "Error communicating with GPT: " ++ lit "down"] } := by
  refine ⟨by decide, ?_, ?_⟩
  · have h1 := (claim_C8_amended (lit "ping") (lit "ping") (by decide)).1 (lit " pong ")
    rw [h1]
    decide
  · exact (claim_C8_amended (lit "ping") (lit "ping") (by decide)).2 (lit "down")

/-- C9: for a text input, extraction is the identity function. -/
theorem claim_C9 (x : Str) : extractFromTextInput x = x := by
  unfold extractFromTextInput
  by_cases h : x = []
  · simp [h]
  · simp [h]

/-- C2: after the questions of `qs` are submitted, the history has exactly
one record per question, in submission order, each rendered from its
original question text and the answer returned at that step; the only
operation on the history appends one record and edits nothing. -/
theorem claim_C2 (llm : Str → Except Str Str) (extractedText : Str) (qs : List Str) :
    (runSession llm extractedText [] qs).length = qs.length
    ∧ (∀ (i : Nat) (q : Str), qs[i]? = some q →
        (runSession llm extractedText [] qs)[i]?
          = some (renderRecord q
              (answerOf llm extractedText (runSession llm extractedText [] (qs.take i)) q)))
    ∧ (∀ (history : List Str) (question : Str),
        (getAnswerStep llm extractedText history question).1
          = history ++ [renderRecord question (answerOf llm extractedText history question)]) := by
  refine ⟨by simpa using runSession_length llm extractedText qs [],
    ?_, fun history question => getAnswerStep_fst llm extractedText history question⟩
  intro i q hq
  obtain ⟨hlt, hget⟩ := List.getElem?_eq_some_iff.mp hq
  have hsplit : qs = qs.take i ++ (q :: qs.drop (i + 1)) := by
    conv_lhs => rw [← List.take_append_drop i qs]
    rw [List.drop_eq_getElem_cons hlt, hget]
  have hrun : runSession llm extractedText [] qs
      = runSession llm extractedText (runSession llm extractedText [] (qs.take i))
          (q :: qs.drop (i + 1)) := by
    conv_lhs => rw [hsplit]
    exact runSession_append llm extractedText (qs.take i) _ []
  set H := runSession llm extractedText [] (qs.take i) with hH
  have hHlen : H.length = i := by
    rw [hH, runSession_length]
    simp [List.length_take]
    omega
  have hstep : runSession llm extractedText H (q :: qs.drop (i + 1))
      = runSession llm extractedText
          (H ++ [renderRecord q (answerOf llm extractedText H q)]) (qs.drop (i + 1)) := by
    simp only [runSession, getAnswerStep_fst]
  obtain ⟨tail, htail⟩ :=
    runSession_prefix llm extractedText (qs.drop (i + 1))
      (H ++ [renderRecord q (answerOf llm extractedText H q)])
  rw [hrun, hstep, ← htail]
  rw [List.getElem?_append, if_pos (by simp [hHlen])]
  rw [← hHlen, List.getElem?_concat_length]

/-- Witness for C2 at a concrete one-question session. -/
theorem claim_C2_witness :
    (([lit "hi"] : List Str)[0]? = some (lit "hi"))
    ∧ (runSession (fun _ => .ok (lit "fine")) (lit "hi") [] [lit "hi"])[0]?
        = some (renderRecord (lit "hi")
            (answerOf (fun _ => .ok (lit "fine")) (lit "hi")
              (runSession (fun _ => .ok (lit "fine")) (lit "hi") []
                (([lit "hi"] : List Str).take 0))
              (lit "hi"))) := by
  refine ⟨by decide, ?_⟩
  exact (claim_C2 (fun _ => .ok (lit "fine")) (lit "hi") [lit "hi"]).2.1 0 (lit "hi")
    (by decide)

/-- C3 as stated is false on the code: a single-page PDF whose OCR text is
itself a page-delimiter header yields two occurrences of the header
`--- Page 1 ---`, not exactly one. -/
theorem claim_C3_counterexample :
    (extract_text_from_pdf
        (.ok [ .ok { errorMessage := [], annotations := [ lit "--- Page 1 ---"] }])).text
      = lit "--- Page 1 ---\n--- Page 1 ---\n\n"
    ∧ countOcc (lit "--- Page 1 ---")
        (extract_text_from_pdf
          (.ok [ .ok { errorMessage := [], annotations := [ lit "--- Page 1 ---"] }])).text
      = 2 := by
  exact ⟨by decide, by decide⟩

/-- C3 amended: for a rasterization yielding the page list `pages`, the
extractor output is exactly the concatenation, in ascending page order
starting at 1, of the page-delimiter header, that page's OCR text, and a
blank line. -/
theorem claim_C3_amended (pages : List OcrOutcome) :
    (extract_text_from_pdf (.ok pages)).text = specPdfConcat 1 pages := by
  show (pdfLoop pages 1 [] []).text = specPdfConcat 1 pages
  rw [pdfLoop_text]
  simp

/-- Positions shift across a concatenation of page blocks. -/
theorem specPdfConcat_append (as : List OcrOutcome) :
    ∀ (bs : List OcrOutcome) (i : Nat),
      specPdfConcat i (as ++ bs)
        = specPdfConcat i as ++ specPdfConcat (i + as.length) bs := by
  induction as with
  | nil =>
    intro bs i
    simp [specPdfConcat]
  | cons a as ih =>
    intro bs i
    have harith : i + 1 + as.length = i + (as.length + 1) := by omega
    simp [specPdfConcat, ih, List.append_assoc, harith]

/-- C4 as stated is false on the code: when page 1's OCR raises, the
exception is caught inside `extract_text_from_image`, so the PDF loop keeps
going — page 2 is still processed and its text `world` appears in the
output, with the page-1 error only reported as a notice. -/
theorem claim_C4_counterexample :
    (extract_text_from_pdf (.ok [ .error (lit "boom"),
        .ok { errorMessage := [], annotations := [ lit "world"] }])).text
      = lit "--- Page 1 ---\n\n\n--- Page 2 ---\nworld\n\n"
    ∧ (lit "world" <:+:
        (extract_text_from_pdf (.ok [ .error (lit "boom"),
          .ok { errorMessage := [], annotations := [ lit "world"] }])).text)
    ∧ (extract_text_from_pdf (.ok [ .error (lit "boom"),
        .ok { errorMessage := [], annotations := [ lit "world"] }])).notices
      = [lit "Error extracting text from image: " ++ lit "boom"] := by
  refine ⟨by decide, (pyIn_iff _ _).mp (by decide), by decide⟩

/-- C4 amended: a per-page OCR failure does not abort the document — the
failing page contributes a block with empty text and every later page is
still processed and contributes its block; the whole document collapses to
the empty string only when the error is raised outside the per-page OCR
call, e.g. during rasterization. -/
theorem claim_C4_amended (before : List OcrOutcome) (e : Str) (after : List OcrOutcome) :
    (extract_text_from_pdf (.ok (before ++ .error e :: after))).text
      = specPdfConcat 1 before
        ++ (pdfBlock (before.length + 1) [] ++ specPdfConcat (before.length + 2) after)
    ∧ extract_text_from_pdf (.error e)
      = { text := [], notices := [lit "Error extracting text from PDF: " ++ e] } := by
  constructor
  · show (pdfLoop (before ++ .error e :: after) 1 [] []).text = _
    rw [pdfLoop_text]
    rw [specPdfConcat_append]
    have h1 : 1 + before.length = before.length + 1 := by omega
    have h2 : before.length + 1 + 1 = before.length + 2 := by omega
    simp [specPdfConcat, extract_text_from_image, h1, h2]
  · rfl

/-- C10: with a non-empty question, the interaction appends exactly one
record, rendered from the question and the produced answer, unconditionally:
when the relevance check rejects, the recorded answer is the rejection
message; when the model call fails, the recorded answer is the empty string;
the record is never rolled back. -/
theorem claim_C10 (llm : Str → Except Str Str) (extractedText : Str)
    (history : List Str) (question : Str) (h : question ≠ []) :
    (questionInteraction llm extractedText history question).1
      = history ++ [renderRecord question (answerOf llm extractedText history question)]
    ∧ (questionInteraction llm extractedText history question).2
      = some (answerOf llm extractedText history question)
    ∧ (relevanceHit (composePrompt extractedText history question) extractedText = false →
        answerOf llm extractedText history question = rejectionMsg)
    ∧ (∀ e : Str, llm (composePrompt extractedText history question) = .error e →
        relevanceHit (composePrompt extractedText history question) extractedText = true →
        answerOf llm extractedText history question = []) := by
  refine ⟨?_, ?_, ?_, ?_⟩
  · simp [questionInteraction, h, getAnswerStep_fst]
  · simp [questionInteraction, h, getAnswerStep, answerOf]
  · intro hrel
    unfold answerOf
    rw [ask_gpt4_of_not_hit _ _ _ hrel]
  · intro e he hrel
    unfold answerOf ask_gpt4
    rw [hrel, he]
    simp

/-- Witness for C10: a failing model call still appends one record, with the
empty string recorded as the answer. -/
theorem claim_C10_witness :
    (lit "xyz" ≠ ([] : Str))
    ∧ (questionInteraction (fun _ => .error (lit "down")) (lit "xyz") [] (lit "xyz")).1
        = [] ++ [renderRecord (lit "xyz")
            (answerOf (fun _ => .error (lit "down")) (lit "xyz") [] (lit "xyz"))] := by
  refine ⟨by decide, ?_⟩
  exact (claim_C10 (fun _ => .error (lit "down")) (lit "xyz") [] (lit "xyz") (by decide)).1
